import Mathlib

/-!
Verification of the FHIR CapabilityStatement viewer's data-loading pipeline
(`src/app.js`, class `FHIRCapabilityViewer`).  The loader, URL handling and
validation logic are embedded as pure Lean functions; the browser platform
(network, `JSON.parse`, `new URL`) is abstracted as an explicit environment,
while the platform string primitives the code calls (`trim`, `includes`,
`encodeURIComponent`, `decodeURIComponent`, `URLSearchParams`) are modelled
directly after their ECMAScript / WHATWG semantics.
-/

namespace FHIRViewer

/-! ## JSON values

Model of the JavaScript values produced by `JSON.parse`.  Numbers are modelled
as integers (the validation logic only ever tests truthiness and strict
equality with a string literal, so the number representation is irrelevant).
Property access on a non-object yields `none`, modelling `undefined`. -/

inductive Json where
  | null : Json
  | bool (b : Bool) : Json
  | num (n : Int) : Json
  | str (s : String) : Json
  | arr (elems : List Json) : Json
  | obj (fields : List (String × Json)) : Json

/-- JavaScript truthiness of a parsed JSON value: `null`, `false`, `0` and
`""` are falsy, everything else (objects, arrays, other numbers and strings)
is truthy. -/
def Json.truthy : Json → Bool
  | .null => false
  | .bool b => b
  | .num n => n != 0
  | .str s => s != ""
  | .arr _ => true
  | .obj _ => true

/-- Last-binding association lookup (JSON objects with duplicate keys keep the
last occurrence in JavaScript). -/
def assocLast : List (String × Json) → String → Option Json
  | [], _ => none
  | (k', v) :: rest, k =>
    match assocLast rest k with
    | some r => some r
    | none => if k' = k then some v else none

/-- Property access `data.field`: `none` models JavaScript `undefined`
(missing key, or access on a non-object value). -/
def Json.getField : Json → String → Option Json
  | .obj fields, k => assocLast fields k
  | _, _ => none

/-- Embeds `isValidCapabilityStatement` (src/app.js lines 156-160):
`data && data.resourceType === 'CapabilityStatement' && data.fhirVersion`.
The last conjunct is a JavaScript truthiness test, not a string check. -/
def isValidCapabilityStatement (data : Json) : Bool :=
  data.truthy &&
  (match data.getField "resourceType" with
   | some (.str s) => s == "CapabilityStatement"
   | _ => false) &&
  (match data.getField "fhirVersion" with
   | some v => v.truthy
   | none => false)

/-! ## JavaScript string primitives -/

/-- Model of the ECMAScript `WhiteSpace`/`LineTerminator` classes used by
`String.prototype.trim`. -/
def jsWhitespace (c : Char) : Bool :=
  c == ' ' || c == '\t' || c == '\n' || c == '\r' ||
  c.toNat == 11 || c.toNat == 12 || c.toNat == 0xA0 || c.toNat == 0xFEFF ||
  c.toNat == 0x2028 || c.toNat == 0x2029

/-- Model of `String.prototype.trim`. -/
def jsTrim (s : String) : String :=
  ⟨((s.data.dropWhile jsWhitespace).reverse.dropWhile jsWhitespace).reverse⟩

/-- Model of `String.prototype.includes`: substring containment. -/
def jsIncludes (s pat : String) : Bool :=
  s.data.tails.any (fun t => pat.data.isPrefixOf t)

/-! ## The loader environment

`loadCapabilityStatement` interacts with the browser through `fetch`,
`response.json()` / `JSON.parse`, and `new URL`.  These are parameters of the
model: an `Env` fixes the behaviour of the platform for one load invocation. -/

structure HttpResponse where
  status : Nat
  statusText : String
  bodyText : String

inductive FetchOutcome where
  | networkError (msg : String) : FetchOutcome
  | response (r : HttpResponse) : FetchOutcome

structure Request where
  url : String
  accept : String
deriving DecidableEq

structure Env where
  /-- Whether `new URL(s)` succeeds: `isValidUrl` returns this verdict. -/
  urlOk : String → Bool
  /-- The outcome `fetch` produces for a given request. -/
  fetch : Request → FetchOutcome
  /-- The result of `JSON.parse` / `response.json()` on a body text; `none`
  models a parse exception. -/
  parse : String → Option Json

/-- Embeds `isValidUrl` (src/app.js lines 147-154): `new URL(string)` inside
try/catch, success reported through the environment. -/
def isValidUrl (env : Env) (string : String) : Bool :=
  env.urlOk string

/-! ## Load results and error classification

The source signals failures by throwing `Error` values whose messages are
rewritten in the final `catch` block; the spec classifies them into kinds.
Each kind below corresponds to exactly one throw origin in the source. -/

inductive FailureKind where
  | invalidInput
  | networkFailure
  | httpError
  | unexpectedHtmlResponse
  | invalidJson
  | schemaMismatch
deriving DecidableEq

inductive LoadResult where
  | success (doc : Json) : LoadResult
  | failure (kind : FailureKind) (message : String) : LoadResult

/-- Message shown for transport-level failures (src/app.js lines 122-131). -/
def networkFailureText : String :=
  "Network error: Unable to fetch data from the FHIR server. This might be due to:\n                • CORS (Cross-Origin Resource Sharing) restrictions\n                • Network connectivity issues\n                • Invalid URL or server not responding\n                \n                Try:\n                • Checking if the URL is correct and accessible in a browser\n                • Using a different FHIR server that allows CORS\n                • Running this application from an HTTPS server instead of file://"

/-- Message shown when the proxy stage failed (src/app.js lines 132-139). -/
def bothFailedText : String :=
  "Both direct connection and proxy failed. The FHIR server might be:\n                • Temporarily unavailable\n                • Requiring authentication\n                • Behind a firewall that blocks external access\n                \n                Please verify the URL is correct and try again later."

/-- Message thrown when the fallback body looks like HTML (src/app.js line 103). -/
def htmlResponseText : String :=
  "The server returned an HTML page instead of JSON. This might indicate the URL is incorrect or the server is not responding properly."

/-- Errors thrown inside the loader's outer `try` that can reach the final
`catch` block.  Stage-1 errors are always caught by the inner `catch` (which
starts the fallback), so only the constructors below can be terminal. -/
inductive LoadErr where
  | network (msg : String) : LoadErr
  | proxyHttp (status : Nat) (statusText : String) : LoadErr
  | htmlResponse : LoadErr
  | invalidJson : LoadErr
  | schemaMismatch : LoadErr

/-- The `error.message` carried by each terminal throw site. -/
def LoadErr.message : LoadErr → String
  | .network m => m
  | .proxyHttp s st => "Proxy request failed: HTTP " ++ toString s ++ ": " ++ st
  | .htmlResponse => htmlResponseText
  | .invalidJson => "Invalid JSON response from server"
  | .schemaMismatch => "The response does not appear to be a valid FHIR CapabilityStatement"

/-- Spec classification of each terminal throw site. -/
def LoadErr.kind : LoadErr → FailureKind
  | .network _ => .networkFailure
  | .proxyHttp _ _ => .httpError
  | .htmlResponse => .unexpectedHtmlResponse
  | .invalidJson => .invalidJson
  | .schemaMismatch => .schemaMismatch

/-- Embeds the message rewriting in the final `catch` block
(src/app.js lines 119-139). -/
def rewriteMessage (m : String) : String :=
  if jsIncludes m "Failed to fetch" || jsIncludes m "NetworkError" then networkFailureText
  else if jsIncludes m "Proxy request failed" then bothFailedText
  else m

/-! ## The two fetch stages -/

/-- `response.ok`: status in the inclusive range 200-299. -/
def statusOk (s : Nat) : Bool := 200 ≤ s && s ≤ 299

/-- The URL of the direct request (src/app.js line 66):
`url + (url.includes('?') ? '&' : '?') + '_format=json'`. -/
def directUrl (url : String) : String :=
  url ++ (if jsIncludes url "?" then "&" else "?") ++ "_format=json"

def directRequest (url : String) : Request :=
  ⟨directUrl url, "application/fhir+json, application/json"⟩

/-- The CORS proxy endpoint (src/app.js line 83). -/
def proxyUrl : String := "https://api.allorigins.win/raw?url="

/-! ## Percent-encoding (`encodeURIComponent` and friends)

Modelled after ECMA-262 `encodeURIComponent` / `decodeURIComponent` and the
WHATWG `application/x-www-form-urlencoded` parser used by `URLSearchParams`.
Bytes are `Nat`s below 256; characters are encoded through UTF-8. -/

/-- UTF-8 encoding of a Unicode scalar value. -/
def utf8Bytes (n : Nat) : List Nat :=
  if n < 0x80 then [n]
  else if n < 0x800 then [0xC0 + n / 64, 0x80 + n % 64]
  else if n < 0x10000 then [0xE0 + n / 4096, 0x80 + n / 64 % 64, 0x80 + n % 64]
  else [0xF0 + n / 262144, 0x80 + n / 4096 % 64, 0x80 + n / 64 % 64, 0x80 + n % 64]

/-- UTF-8 decoding; `none` on malformed input (stray continuation bytes,
overlong forms, surrogates, out-of-range lead bytes). -/
def utf8Decode : List Nat → Option (List Char)
  | [] => some []
  | b :: bs =>
    if b < 0x80 then
      (utf8Decode bs).map (fun cs => Char.ofNat b :: cs)
    else if b < 0xC2 then none
    else if b < 0xE0 then
      match bs with
      | b1 :: bs' =>
        if 0x80 ≤ b1 ∧ b1 < 0xC0 then
          (utf8Decode bs').map (fun cs => Char.ofNat ((b - 0xC0) * 64 + (b1 - 0x80)) :: cs)
        else none
      | [] => none
    else if b < 0xF0 then
      match bs with
      | b1 :: b2 :: bs' =>
        if 0x80 ≤ b1 ∧ b1 < 0xC0 ∧ 0x80 ≤ b2 ∧ b2 < 0xC0 then
          let cp := (b - 0xE0) * 4096 + (b1 - 0x80) * 64 + (b2 - 0x80)
          if 0x800 ≤ cp ∧ ¬ (0xD800 ≤ cp ∧ cp < 0xE000) then
            (utf8Decode bs').map (fun cs => Char.ofNat cp :: cs)
          else none
        else none
      | _ => none
    else if b < 0xF5 then
      match bs with
      | b1 :: b2 :: b3 :: bs' =>
        if 0x80 ≤ b1 ∧ b1 < 0xC0 ∧ 0x80 ≤ b2 ∧ b2 < 0xC0 ∧ 0x80 ≤ b3 ∧ b3 < 0xC0 then
          let cp := (b - 0xF0) * 262144 + (b1 - 0x80) * 4096 + (b2 - 0x80) * 64 + (b3 - 0x80)
          if 0x10000 ≤ cp ∧ cp < 0x110000 then
            (utf8Decode bs').map (fun cs => Char.ofNat cp :: cs)
          else none
        else none
      | _ => none
    else none

/-- The code points `encodeURIComponent` leaves unescaped:
`A-Z a-z 0-9 - _ . ! ~ * ' ( )`. -/
def isUnreservedCode (n : Nat) : Bool :=
  (65 ≤ n && n ≤ 90) || (97 ≤ n && n ≤ 122) || (48 ≤ n && n ≤ 57) ||
  n == 45 || n == 95 || n == 46 || n == 33 || n == 126 || n == 42 ||
  n == 39 || n == 40 || n == 41

/-- Uppercase hexadecimal digit, as emitted by `encodeURIComponent`. -/
def hexDigitChar (n : Nat) : Char :=
  if n < 10 then Char.ofNat (48 + n) else Char.ofNat (55 + n)

/-- Value of an ASCII hexadecimal digit byte (both cases accepted). -/
def hexValB : Nat → Option Nat
  | b =>
    if 48 ≤ b ∧ b ≤ 57 then some (b - 48)
    else if 65 ≤ b ∧ b ≤ 70 then some (b - 55)
    else if 97 ≤ b ∧ b ≤ 102 then some (b - 87)
    else none

/-- The `%XX` escape of one byte. -/
def pctTriple (b : Nat) : List Char :=
  ['%', hexDigitChar (b / 16), hexDigitChar (b % 16)]

/-- `encodeURIComponent` on one character. -/
def encodeChar (c : Char) : List Char :=
  if isUnreservedCode c.toNat then [c]
  else (utf8Bytes c.toNat).flatMap pctTriple

def encodeURIComponentList (s : List Char) : List Char :=
  s.flatMap encodeChar

/-- Model of `encodeURIComponent`. -/
def encodeURIComponent (s : String) : String :=
  ⟨encodeURIComponentList s.data⟩

/-- UTF-8 byte stream of a character list. -/
def strBytes (s : List Char) : List Nat :=
  s.flatMap (fun c => utf8Bytes c.toNat)

/-- WHATWG percent-decoding: `%XX` with two hex digits becomes a byte,
malformed escapes are copied verbatim. -/
def pctDecodeBytes : List Nat → List Nat
  | b :: b1 :: b2 :: bs =>
    if b = 37 then
      match hexValB b1, hexValB b2 with
      | some h, some l => (16 * h + l) :: pctDecodeBytes bs
      | _, _ => b :: pctDecodeBytes (b1 :: b2 :: bs)
    else b :: pctDecodeBytes (b1 :: b2 :: bs)
  | l => l

/-- Strict percent-decoding: malformed escapes raise `URIError`
(modelled as `none`), as in `decodeURIComponent`. -/
def pctDecodeStrict : List Nat → Option (List Nat)
  | b :: b1 :: b2 :: bs =>
    if b = 37 then
      match hexValB b1, hexValB b2 with
      | some h, some l => (pctDecodeStrict bs).map (fun r => (16 * h + l) :: r)
      | _, _ => none
    else (pctDecodeStrict (b1 :: b2 :: bs)).map (fun r => b :: r)
  | b :: bs =>
    if b = 37 then none
    else (pctDecodeStrict bs).map (fun r => b :: r)
  | [] => some []

/-- Model of `decodeURIComponent`: `none` models a thrown `URIError`. -/
def decodeURIComponentModel (s : String) : Option String :=
  (pctDecodeStrict (strBytes s.data)).bind
    (fun bs => (utf8Decode bs).map (fun cs => (⟨cs⟩ : String)))

/-- `application/x-www-form-urlencoded` value decoding: `+` means space,
then percent-decode. -/
def plusToSpace (s : List Char) : List Char :=
  s.map (fun c => if c = '+' then ' ' else c)

def formUrlDecode (s : List Char) : Option (List Char) :=
  utf8Decode (pctDecodeBytes (strBytes (plusToSpace s)))

/-- Split a parameter string at `&` separators. -/
def splitOnAmp : List Char → List (List Char)
  | [] => [[]]
  | c :: cs =>
    if c = '&' then [] :: splitOnAmp cs
    else
      match splitOnAmp cs with
      | p :: ps => (c :: p) :: ps
      | [] => [[c]]

/-- Split one `name=value` piece at the first `=`. -/
def splitAtEq : List Char → List Char × List Char
  | [] => ([], [])
  | c :: cs =>
    if c = '=' then ([], cs)
    else
      match splitAtEq cs with
      | (k, v) => (c :: k, v)

/-- Model of `new URLSearchParams(search).get(key)`: strip a leading `?`,
split on `&`, skip empty pieces, return the decoded value of the first piece
whose decoded name equals `key`. -/
def searchParamsGet (search : String) (key : String) : Option String :=
  let s := match search.data with
    | c :: rest => if c = '?' then rest else c :: rest
    | [] => []
  let pieces := (splitOnAmp s).filter (fun p => p ≠ [])
  (pieces.findSome? (fun p =>
    match splitAtEq p with
    | (k, v) =>
      match formUrlDecode k with
      | some kd => if kd = key.data then some v else none
      | none => none)).bind
    (fun v => (formUrlDecode v).map (fun cs => (⟨cs⟩ : String)))

/-- The fallback request (src/app.js lines 83-91): the proxy endpoint with the
direct-request URL percent-encoded into its `url` query parameter. -/
def fallbackRequest (url : String) : Request :=
  ⟨proxyUrl ++ encodeURIComponent (directUrl url), "application/json"⟩

/-- Outcome of the direct fetch attempt (src/app.js lines 65-78).  Its error
values never surface: any of them triggers the fallback. -/
inductive Stage1Err where
  | network (msg : String) : Stage1Err
  | http (status : Nat) (statusText : String) : Stage1Err
  | parseFail : Stage1Err

/-- Stage 1: direct fetch, `response.ok` check, `response.json()`. -/
def stage1Result (env : Env) (url : String) : Except Stage1Err Json :=
  match env.fetch (directRequest url) with
  | .networkError m => .error (.network m)
  | .response r =>
    if statusOk r.status then
      match env.parse r.bodyText with
      | some j => .ok j
      | none => .error .parseFail
    else .error (.http r.status r.statusText)

def stage1Fails (env : Env) (url : String) : Bool :=
  match stage1Result env url with
  | .ok _ => false
  | .error _ => true

/-- Stage 2: proxied fetch, `response.ok` check, `JSON.parse` with HTML
sniffing on parse failure (src/app.js lines 86-106). -/
def stage2Result (env : Env) (url : String) : Except LoadErr Json :=
  match env.fetch (fallbackRequest url) with
  | .networkError m => .error (.network m)
  | .response r =>
    if statusOk r.status then
      match env.parse r.bodyText with
      | some j => .ok j
      | none =>
        if jsIncludes r.bodyText "<html>" || jsIncludes r.bodyText "<!DOCTYPE" then
          .error .htmlResponse
        else .error .invalidJson
    else .error (.proxyHttp r.status r.statusText)

/-- Schema validation after either stage (src/app.js lines 109-111). -/
def validateResult (data : Json) : Except LoadErr Json :=
  if isValidCapabilityStatement data then .ok data else .error .schemaMismatch

/-- Turns validated data, or a terminal error, into the surfaced result
(assignment and display on success; the final `catch` block on failure). -/
def finishLoad : Except LoadErr Json → LoadResult
  | .ok doc => .success doc
  | .error e => .failure e.kind (rewriteMessage e.message)

/-- Embeds `loadCapabilityStatement` (src/app.js lines 41-145).  Returns the
surfaced result together with the list of network requests issued, in order.
The input is trimmed; an empty or unparsable URL aborts before any request
(lines 45-53); otherwise the direct stage runs, any of its failures starts
the fallback stage, and the outcome of the last stage that ran is validated
and surfaced. -/
def loadCapabilityStatement (env : Env) (input : String) : LoadResult × List Request :=
  let url := jsTrim input
  if url = "" then
    (.failure .invalidInput "Please enter a valid FHIR CapabilityStatement URL", [])
  else if isValidUrl env url = false then
    (.failure .invalidInput "Please enter a valid URL format", [])
  else
    match stage1Result env url with
    | .ok data => (finishLoad (validateResult data), [directRequest url])
    | .error _ =>
      match stage2Result env url with
      | .ok data =>
        (finishLoad (validateResult data), [directRequest url, fallbackRequest url])
      | .error e =>
        (finishLoad (.error e), [directRequest url, fallbackRequest url])

/-! ## Application-level URL parameter handling -/

/-- Embeds `checkUrlParameters` (src/app.js lines 778-791): read the `url`
query parameter of the page address and, when it is truthy (`if (fhirUrl)`,
line 783 — the empty string is falsy), decode it with `decodeURIComponent`.
`none` means no load is started (parameter absent, or present but empty);
`some none` means `decodeURIComponent` threw; `some (some u)` means `u` is
put into the input field and loaded. -/
def checkUrlParametersUrl (search : String) : Option (Option String) :=
  match searchParamsGet search "url" with
  | some fhirUrl =>
    if fhirUrl = "" then none else some (decodeURIComponentModel fhirUrl)
  | none => none

/-- Embeds `generatePermalink` (src/app.js lines 793-803): the page address
with the trimmed input URL encoded into a `url` query parameter; `none` when
the input field is empty. -/
def generatePermalink (baseUrl inputValue : String) : Option String :=
  let currentUrl := jsTrim inputValue
  if currentUrl = "" then none
  else some (baseUrl ++ "?url=" ++ encodeURIComponent currentUrl)

/-! ## Stored state (`capabilityData`)

`capabilityData` starts as `null` (constructor, src/app.js line 4) and is
assigned only at line 113, after validation; `displayCapabilityStatement`
runs only after that assignment. -/

/-- One load invocation acting on the stored `capabilityData`; the boolean
records whether the views were (re)built. -/
def loadStep (st : Option Json) (env : Env) (input : String) : Option Json × Bool :=
  match (loadCapabilityStatement env input).1 with
  | .success doc => (some doc, true)
  | .failure _ _ => (st, false)

/-- States of `capabilityData` reachable from the freshly constructed viewer
by load invocations. -/
inductive ReachableCapabilityData : Option Json → Prop where
  | init : ReachableCapabilityData none
  | step (st : Option Json) (env : Env) (input : String) :
      ReachableCapabilityData st →
      ReachableCapabilityData (loadStep st env input).1

/-! ## Definitions taken from the specification's wording

These two notions come from the claims being checked, not from the source;
they exist to be compared against the code's behaviour. -/

/-- Formalizes the claim's notion of a URL "already having a query string":
in generic URL syntax the query component follows the first `?` that precedes
the fragment delimiter `#`.  The code instead tests for `?` anywhere in the
string. -/
def specHasQueryString (s : String) : Bool :=
  (s.data.takeWhile (fun c => c != '#')).contains '?'

/-- Formalizes the claim's validity condition on `fhirVersion`: present and a
non-empty string.  The code instead applies a JavaScript truthiness test. -/
def fhirVersionIsNonEmptyString (j : Json) : Bool :=
  match j.getField "fhirVersion" with
  | some (.str s) => s != ""
  | _ => false

/-! ## Concrete environments used to witness the theorems -/

/-- A schema-valid CapabilityStatement document. -/
def goodDoc : Json :=
  .obj [("resourceType", .str "CapabilityStatement"), ("fhirVersion", .str "4.0.1")]

/-- A document whose `fhirVersion` is a number, not a string. -/
def numVersionDoc : Json :=
  .obj [("resourceType", .str "CapabilityStatement"), ("fhirVersion", .num 42)]

/-- Direct request answered 200 with a body parsing to `goodDoc`. -/
def envDirectGood : Env :=
  { urlOk := fun _ => true
    fetch := fun _ => .response ⟨200, "OK", "good"⟩
    parse := fun s => if s = "good" then some goodDoc else none }

/-- Direct request answered 200 with a body parsing to `numVersionDoc`. -/
def envDirectNumVersion : Env :=
  { urlOk := fun _ => true
    fetch := fun _ => .response ⟨200, "OK", "numv"⟩
    parse := fun s => if s = "numv" then some numVersionDoc else none }

/-- Every request answered 404 with an unparsable body. -/
def envBoth404 : Env :=
  { urlOk := fun _ => true
    fetch := fun _ => .response ⟨404, "Not Found", "nope"⟩
    parse := fun _ => none }

/-- Direct request fails on the network; the fallback returns an HTML page. -/
def envFallbackHtml : Env :=
  { urlOk := fun _ => true
    fetch := fun req =>
      if req.accept = "application/json" then .response ⟨200, "OK", "<html>oops"⟩
      else .networkError "Failed to fetch"
    parse := fun _ => none }

/-- Direct request fails on the network; the fallback returns `goodDoc`. -/
def envFallbackGood : Env :=
  { urlOk := fun _ => true
    fetch := fun req =>
      if req.accept = "application/json" then .response ⟨200, "OK", "good"⟩
      else .networkError "Failed to fetch"
    parse := fun s => if s = "good" then some goodDoc else none }

/-- `new URL` rejects every string. -/
def envNoUrl : Env :=
  { urlOk := fun _ => false
    fetch := fun _ => .networkError "unreachable"
    parse := fun _ => none }

/-! ## Helper lemmas about the loader -/

theorem load_valid_unfold (env : Env) (input : String)
    (hne : jsTrim input ≠ "") (hok : env.urlOk (jsTrim input) = true) :
    loadCapabilityStatement env input =
      match stage1Result env (jsTrim input) with
      | .ok data => (finishLoad (validateResult data), [directRequest (jsTrim input)])
      | .error _ =>
        match stage2Result env (jsTrim input) with
        | .ok data => (finishLoad (validateResult data),
            [directRequest (jsTrim input), fallbackRequest (jsTrim input)])
        | .error e => (finishLoad (.error e),
            [directRequest (jsTrim input), fallbackRequest (jsTrim input)]) := by
  rw [loadCapabilityStatement]
  simp only [isValidUrl, hok, if_neg hne]
  rfl

theorem load_success_valid (env : Env) (input : String) (d : Json)
    (h : (loadCapabilityStatement env input).1 = .success d) :
    isValidCapabilityStatement d = true := by
  by_cases h0 : jsTrim input = ""
  · rw [loadCapabilityStatement, if_pos h0] at h
    exact absurd h (by simp)
  · by_cases h1 : env.urlOk (jsTrim input) = true
    · rw [load_valid_unfold env input h0 h1] at h
      revert h
      cases hs : stage1Result env (jsTrim input) with
      | ok data =>
        intro h
        simp only [finishLoad, validateResult] at h
        by_cases hv : isValidCapabilityStatement data = true
        · simp only [hv, if_pos] at h
          cases h
          exact hv
        · simp only [if_neg hv] at h
          exact absurd h (by simp [LoadErr.kind])
      | error e1 =>
        cases hs2 : stage2Result env (jsTrim input) with
        | ok data =>
          intro h
          simp only [finishLoad, validateResult] at h
          by_cases hv : isValidCapabilityStatement data = true
          · simp only [hv, if_pos] at h
            cases h
            exact hv
          · simp only [if_neg hv] at h
            exact absurd h (by simp [LoadErr.kind])
        | error e =>
          intro h
          dsimp only at h
          exact absurd h (by simp [finishLoad])
    · rw [loadCapabilityStatement, if_neg h0,
        if_pos (by simp [isValidUrl]; exact Bool.eq_false_iff.mpr (fun hc => h1 hc))] at h
      exact absurd h (by simp)

/-! ## C3: total, classified outcome -/

/-- C3: every load invocation terminates with exactly one outcome — a
`Success` document or a classified `Failure` — and issues zero, one, or two
requests; no stage lets an error propagate past the loader. -/
theorem load_total_outcome (env : Env) (input : String) :
    ((∃ d, (loadCapabilityStatement env input).1 = .success d) ∨
      (∃ k m, (loadCapabilityStatement env input).1 = .failure k m)) ∧
    ((loadCapabilityStatement env input).2 = [] ∨
      (loadCapabilityStatement env input).2 = [directRequest (jsTrim input)] ∨
      (loadCapabilityStatement env input).2
        = [directRequest (jsTrim input), fallbackRequest (jsTrim input)]) := by
  constructor
  · cases h : (loadCapabilityStatement env input).1 with
    | success d => exact .inl ⟨d, rfl⟩
    | failure k m => exact .inr ⟨k, m, rfl⟩
  · by_cases h0 : jsTrim input = ""
    · left
      rw [loadCapabilityStatement, if_pos h0]
    · by_cases h1 : env.urlOk (jsTrim input) = true
      · rw [load_valid_unfold env input h0 h1]
        cases stage1Result env (jsTrim input) with
        | ok data => right; left; rfl
        | error e1 =>
          cases stage2Result env (jsTrim input) with
          | ok data => right; right; rfl
          | error e => right; right; rfl
      · left
        rw [loadCapabilityStatement, if_neg h0, if_pos]
        simp only [isValidUrl]
        exact Bool.eq_false_iff.mpr (fun hc => h1 hc)

/-! ## C4: malformed URL means no network -/

/-- C4: when the (trimmed) input does not parse as a URL, the result is an
`InvalidInput` failure and no network request is issued. -/
theorem invalid_url_no_network (env : Env) (input : String)
    (h : env.urlOk (jsTrim input) = false) :
    (∃ m, (loadCapabilityStatement env input).1 = .failure .invalidInput m) ∧
    (loadCapabilityStatement env input).2 = [] := by
  by_cases h0 : jsTrim input = ""
  · rw [loadCapabilityStatement, if_pos h0]
    exact ⟨⟨_, rfl⟩, rfl⟩
  · rw [loadCapabilityStatement, if_neg h0, if_pos (by simp [isValidUrl, h])]
    exact ⟨⟨_, rfl⟩, rfl⟩

/-- Witness for C4 on a concrete non-URL input. -/
theorem invalid_url_no_network_witness :
    (∃ m, (loadCapabilityStatement envNoUrl "not a url").1 = .failure .invalidInput m) ∧
    (loadCapabilityStatement envNoUrl "not a url").2 = [] :=
  invalid_url_no_network envNoUrl "not a url" rfl

/-! ## Stage inversion lemmas -/

theorem stage1Result_ok_iff (env : Env) (url : String) (d : Json) :
    stage1Result env url = .ok d ↔
    ∃ r, env.fetch (directRequest url) = .response r ∧ statusOk r.status = true ∧
      env.parse r.bodyText = some d := by
  constructor
  · intro h
    rw [stage1Result] at h
    cases hf : env.fetch (directRequest url) with
    | networkError m => rw [hf] at h; exact absurd h (by simp)
    | response r =>
      rw [hf] at h
      dsimp only at h
      by_cases hst : statusOk r.status
      · rw [if_pos hst] at h
        cases hp : env.parse r.bodyText with
        | none => rw [hp] at h; exact absurd h (by simp)
        | some j =>
          rw [hp] at h
          cases h
          exact ⟨r, rfl, hst, hp⟩
      · rw [if_neg hst] at h
        exact absurd h (by simp)
  · rintro ⟨r, hf, hst, hp⟩
    rw [stage1Result, hf]
    dsimp only
    rw [if_pos hst, hp]

theorem stage2Result_ok_iff (env : Env) (url : String) (d : Json) :
    stage2Result env url = .ok d ↔
    ∃ r, env.fetch (fallbackRequest url) = .response r ∧ statusOk r.status = true ∧
      env.parse r.bodyText = some d := by
  constructor
  · intro h
    rw [stage2Result] at h
    cases hf : env.fetch (fallbackRequest url) with
    | networkError m => rw [hf] at h; exact absurd h (by simp)
    | response r =>
      rw [hf] at h
      dsimp only at h
      by_cases hst : statusOk r.status
      · rw [if_pos hst] at h
        cases hp : env.parse r.bodyText with
        | none =>
          rw [hp] at h
          by_cases hh : (jsIncludes r.bodyText "<html>" || jsIncludes r.bodyText "<!DOCTYPE") = true
          · rw [if_pos hh] at h; exact absurd h (by simp)
          · rw [if_neg hh] at h; exact absurd h (by simp)
        | some j =>
          rw [hp] at h
          cases h
          exact ⟨r, rfl, hst, hp⟩
      · rw [if_neg hst] at h
        exact absurd h (by simp)
  · rintro ⟨r, hf, hst, hp⟩
    rw [stage2Result, hf]
    dsimp only
    rw [if_pos hst, hp]

/-! ## C1: the fallback fires exactly on stage-1 failure -/

/-- C1: for a well-formed trimmed URL, the fallback request is issued if and
only if the direct stage failed (transport error, non-2xx status, or body
parse failure), and then exactly once, targeting the relay endpoint with the
percent-encoded direct URL in its `url` parameter; a 2xx direct response with
a parsable, schema-matching body never triggers the fallback. -/
theorem fallback_iff_stage1_fails (env : Env) (input : String)
    (hne : jsTrim input ≠ "") (hok : env.urlOk (jsTrim input) = true) :
    ((loadCapabilityStatement env input).2
        = [directRequest (jsTrim input), fallbackRequest (jsTrim input)]
      ↔ stage1Fails env (jsTrim input) = true) ∧
    (stage1Fails env (jsTrim input) = false →
      (loadCapabilityStatement env input).2 = [directRequest (jsTrim input)]) ∧
    ((fallbackRequest (jsTrim input)).url
        = proxyUrl ++ encodeURIComponent (directUrl (jsTrim input))) ∧
    (∀ r data, env.fetch (directRequest (jsTrim input)) = .response r →
      statusOk r.status = true → env.parse r.bodyText = some data →
      isValidCapabilityStatement data = true →
      (loadCapabilityStatement env input).2 = [directRequest (jsTrim input)]) := by
  have hmain : ∀ d : Json, stage1Result env (jsTrim input) = .ok d →
      (loadCapabilityStatement env input).2 = [directRequest (jsTrim input)] := by
    intro d hs
    rw [load_valid_unfold env input hne hok, hs]
  refine ⟨?_, ?_, rfl, ?_⟩
  · rw [load_valid_unfold env input hne hok]
    cases hs : stage1Result env (jsTrim input) with
    | ok data =>
      simp only [stage1Fails, hs]
      constructor
      · intro h
        exact absurd h (by simp)
      · intro h
        exact absurd h (by simp)
    | error e =>
      simp only [stage1Fails, hs]
      cases stage2Result env (jsTrim input) <;> simp
  · intro h
    cases hs : stage1Result env (jsTrim input) with
    | ok data => exact hmain data hs
    | error e => rw [stage1Fails, hs] at h; exact absurd h (by simp)
  · intro r data hf hst hp _
    exact hmain data ((stage1Result_ok_iff env (jsTrim input) data).mpr ⟨r, hf, hst, hp⟩)

/-- Witness for C1: a direct 200 response with a schema-valid body issues only
the direct request, and the fallback target is well-formed. -/
theorem fallback_iff_stage1_fails_witness :
    (((loadCapabilityStatement envDirectGood "https://example.org/metadata").2
        = [directRequest (jsTrim "https://example.org/metadata"),
           fallbackRequest (jsTrim "https://example.org/metadata")]
      ↔ stage1Fails envDirectGood (jsTrim "https://example.org/metadata") = true) ∧
    (stage1Fails envDirectGood (jsTrim "https://example.org/metadata") = false →
      (loadCapabilityStatement envDirectGood "https://example.org/metadata").2
        = [directRequest (jsTrim "https://example.org/metadata")]) ∧
    ((fallbackRequest (jsTrim "https://example.org/metadata")).url
        = proxyUrl ++ encodeURIComponent (directUrl (jsTrim "https://example.org/metadata"))) ∧
    (∀ r data,
      envDirectGood.fetch (directRequest (jsTrim "https://example.org/metadata")) = .response r →
      statusOk r.status = true → envDirectGood.parse r.bodyText = some data →
      isValidCapabilityStatement data = true →
      (loadCapabilityStatement envDirectGood "https://example.org/metadata").2
        = [directRequest (jsTrim "https://example.org/metadata")])) :=
  fallback_iff_stage1_fails envDirectGood "https://example.org/metadata" (by decide) rfl

/-! ## C2: schema validation -/

/-- C2 counterexample: a direct 200 response whose body parses to a document
with `resourceType` `"CapabilityStatement"` but `fhirVersion` equal to the
number `42` is returned as a `Success`, although its `fhirVersion` is not a
non-empty string — the code only tests truthiness. -/
theorem schema_validation_counterexample :
    (loadCapabilityStatement envDirectNumVersion "https://example.org/metadata").1
      = .success numVersionDoc ∧
    fhirVersionIsNonEmptyString numVersionDoc = false :=
  ⟨rfl, rfl⟩

/-- C2 amended: after a successful parse (from either stage), the result is
`Success` when `isValidCapabilityStatement` holds of the document —
`data` truthy, `resourceType === "CapabilityStatement"`, and `fhirVersion`
present and truthy (any truthy value passes, not only non-empty strings) —
and a `SchemaMismatch` failure otherwise; every `Success` document satisfies
that truthiness check. -/
theorem schema_validation_amended (env : Env) (input : String) (data : Json)
    (hne : jsTrim input ≠ "") (hok : env.urlOk (jsTrim input) = true)
    (hdata : stage1Result env (jsTrim input) = .ok data ∨
      (stage1Fails env (jsTrim input) = true ∧
        stage2Result env (jsTrim input) = .ok data)) :
    (loadCapabilityStatement env input).1
      = (if isValidCapabilityStatement data then .success data
         else .failure .schemaMismatch
           "The response does not appear to be a valid FHIR CapabilityStatement") ∧
    (∀ d, (loadCapabilityStatement env input).1 = .success d →
      isValidCapabilityStatement d = true) := by
  have hbranch : (loadCapabilityStatement env input).1 = finishLoad (validateResult data) := by
    rcases hdata with hs | ⟨h1, hs⟩
    · rw [load_valid_unfold env input hne hok, hs]
    · cases he : stage1Result env (jsTrim input) with
      | ok d0 => rw [stage1Fails, he] at h1; exact absurd h1 (by simp)
      | error e => rw [load_valid_unfold env input hne hok, he, hs]
  refine ⟨?_, fun d h => load_success_valid env input d h⟩
  rw [hbranch, finishLoad.eq_def, validateResult]
  by_cases hv : isValidCapabilityStatement data = true
  · rw [if_pos hv, if_pos hv]
  · rw [if_neg hv, if_neg hv]
    exact congrArg (LoadResult.failure _) rfl

/-- Witness for C2 (amended) with a valid document arriving via the fallback
stage. -/
theorem schema_validation_amended_witness :
    ((loadCapabilityStatement envFallbackGood "https://example.org/metadata").1
      = (if isValidCapabilityStatement goodDoc then .success goodDoc
         else .failure .schemaMismatch
           "The response does not appear to be a valid FHIR CapabilityStatement") ∧
    (∀ d, (loadCapabilityStatement envFallbackGood "https://example.org/metadata").1
        = .success d → isValidCapabilityStatement d = true)) :=
  schema_validation_amended envFallbackGood "https://example.org/metadata" goodDoc
    (by decide) rfl (.inr ⟨rfl, rfl⟩)

/-! ## C5: HTML sniffing on fallback parse failure -/

/-- C5: when the fallback stage returns a 2xx response whose body fails JSON
parsing, the failure is `UnexpectedHtmlResponse` when the raw text contains
the substring `<html>` or the doctype marker `<!DOCTYPE`, and `InvalidJson`
when it contains neither. -/
theorem fallback_parse_failure_classification (env : Env) (input : String)
    (r : HttpResponse)
    (hne : jsTrim input ≠ "") (hok : env.urlOk (jsTrim input) = true)
    (h1 : stage1Fails env (jsTrim input) = true)
    (h2 : env.fetch (fallbackRequest (jsTrim input)) = .response r)
    (h3 : statusOk r.status = true)
    (h4 : env.parse r.bodyText = none) :
    ((jsIncludes r.bodyText "<html>" || jsIncludes r.bodyText "<!DOCTYPE") = true →
      (loadCapabilityStatement env input).1
        = .failure .unexpectedHtmlResponse htmlResponseText) ∧
    ((jsIncludes r.bodyText "<html>" || jsIncludes r.bodyText "<!DOCTYPE") = false →
      (loadCapabilityStatement env input).1
        = .failure .invalidJson "Invalid JSON response from server") := by
  cases he : stage1Result env (jsTrim input) with
  | ok d0 => rw [stage1Fails, he] at h1; exact absurd h1 (by simp)
  | error e =>
    have hs2 : ∀ b : Bool,
        (jsIncludes r.bodyText "<html>" || jsIncludes r.bodyText "<!DOCTYPE") = b →
        stage2Result env (jsTrim input)
          = .error (if b then .htmlResponse else .invalidJson) := by
      intro b hb
      rw [stage2Result, h2]
      dsimp only
      rw [if_pos h3, h4, hb]
      cases b <;> rfl
    constructor
    · intro hh
      rw [load_valid_unfold env input hne hok, he, hs2 true hh]
      rfl
    · intro hh
      rw [load_valid_unfold env input hne hok, he, hs2 false hh]
      rfl

/-- Witness for C5: fallback body `"<html>oops"` yields
`UnexpectedHtmlResponse`. -/
theorem fallback_parse_failure_classification_witness :
    (((jsIncludes "<html>oops" "<html>" || jsIncludes "<html>oops" "<!DOCTYPE") = true →
      (loadCapabilityStatement envFallbackHtml "https://example.org/metadata").1
        = .failure .unexpectedHtmlResponse htmlResponseText) ∧
    ((jsIncludes "<html>oops" "<html>" || jsIncludes "<html>oops" "<!DOCTYPE") = false →
      (loadCapabilityStatement envFallbackHtml "https://example.org/metadata").1
        = .failure .invalidJson "Invalid JSON response from server")) :=
  fallback_parse_failure_classification envFallbackHtml "https://example.org/metadata"
    ⟨200, "OK", "<html>oops"⟩ (by decide) rfl rfl rfl rfl rfl

/-! ## C6: the stored document is the parsed wire body, verbatim -/

/-- C6: a `Success` result carries exactly the JSON value parsed from the
body of the response it consumed (direct stage, or fallback stage after a
direct failure) — no transformation, renaming or reordering happens between
the wire format and the stored document. -/
theorem success_document_verbatim (env : Env) (input : String) (doc : Json)
    (h : (loadCapabilityStatement env input).1 = .success doc) :
    (∃ r, env.fetch (directRequest (jsTrim input)) = .response r ∧
      statusOk r.status = true ∧ env.parse r.bodyText = some doc) ∨
    (stage1Fails env (jsTrim input) = true ∧
      ∃ r, env.fetch (fallbackRequest (jsTrim input)) = .response r ∧
        statusOk r.status = true ∧ env.parse r.bodyText = some doc) := by
  by_cases h0 : jsTrim input = ""
  · rw [loadCapabilityStatement, if_pos h0] at h
    exact absurd h (by simp)
  · by_cases h1 : env.urlOk (jsTrim input) = true
    · rw [load_valid_unfold env input h0 h1] at h
      revert h
      cases hs : stage1Result env (jsTrim input) with
      | ok data =>
        intro h
        dsimp only at h
        have hd : data = doc := by
          rw [finishLoad.eq_def, validateResult] at h
          by_cases hv : isValidCapabilityStatement data = true
          · rw [if_pos hv] at h; cases h; rfl
          · rw [if_neg hv] at h; exact absurd h (by simp)
        exact .inl ((stage1Result_ok_iff env (jsTrim input) doc).mp (hd ▸ hs))
      | error e1 =>
        cases hs2 : stage2Result env (jsTrim input) with
        | ok data =>
          intro h
          dsimp only at h
          have hd : data = doc := by
            rw [finishLoad.eq_def, validateResult] at h
            by_cases hv : isValidCapabilityStatement data = true
            · rw [if_pos hv] at h; cases h; rfl
            · rw [if_neg hv] at h; exact absurd h (by simp)
          exact .inr ⟨by rw [stage1Fails, hs],
            (stage2Result_ok_iff env (jsTrim input) doc).mp (hd ▸ hs2)⟩
        | error e =>
          intro h
          dsimp only at h
          exact absurd h (by simp [finishLoad])
    · rw [loadCapabilityStatement, if_neg h0,
        if_pos (by simp only [isValidUrl]; exact Bool.eq_false_iff.mpr (fun hc => h1 hc))] at h
      exact absurd h (by simp)

/-- Witness for C6 on a concrete successful load. -/
theorem success_document_verbatim_witness :
    (∃ r, envDirectGood.fetch (directRequest (jsTrim "https://example.org/metadata"))
        = .response r ∧ statusOk r.status = true ∧
        envDirectGood.parse r.bodyText = some goodDoc) ∨
    (stage1Fails envDirectGood (jsTrim "https://example.org/metadata") = true ∧
      ∃ r, envDirectGood.fetch (fallbackRequest (jsTrim "https://example.org/metadata"))
          = .response r ∧ statusOk r.status = true ∧
          envDirectGood.parse r.bodyText = some goodDoc) :=
  success_document_verbatim envDirectGood "https://example.org/metadata" goodDoc rfl

/-! ## String helper lemmas -/

theorem string_data_append (s t : String) : (s ++ t).data = s.data ++ t.data := by
  cases s
  cases t
  rfl

theorem string_ext_data (s t : String) (h : s.data = t.data) : s = t := by
  cases s
  cases t
  cases h
  rfl

theorem string_append_append (u x y z : String) (h : x.data ++ y.data = z.data) :
    u ++ x ++ y = u ++ z := by
  apply string_ext_data
  rw [string_data_append, string_data_append, string_data_append, List.append_assoc, h]

theorem jsIncludes_of_data_prefix (s p : String) (h : p.data <+: s.data) :
    jsIncludes s p = true := by
  rw [jsIncludes, List.any_eq_true]
  exact ⟨s.data, (List.mem_tails _ _).mpr (List.suffix_refl _),
    List.isPrefixOf_iff_prefix.mpr h⟩

theorem proxyMsg_marker (n : Nat) (st : String) :
    jsIncludes ("Proxy request failed: HTTP " ++ toString n ++ ": " ++ st)
      "Proxy request failed" = true := by
  apply jsIncludes_of_data_prefix
  rw [string_data_append, string_data_append, string_data_append]
  have hsplit : ("Proxy request failed: HTTP " : String).data
      = ("Proxy request failed" : String).data ++ (": HTTP " : String).data := rfl
  rw [hsplit, List.append_assoc, List.append_assoc, List.append_assoc]
  exact List.prefix_append _ _

/-! ## C7: merging `_format=json` into the request URL -/

/-- C7 counterexample: `https://example.org/p#a?b` is a well-formed absolute
URL with an empty query component (its only `?` lies inside the fragment),
yet the code joins with `&` because it merely tests `url.includes('?')`; the
parameter is appended after the fragment instead of into the query. -/
theorem direct_url_merge_counterexample :
    specHasQueryString "https://example.org/p#a?b" = false ∧
    jsIncludes "https://example.org/p#a?b" "?" = true ∧
    directUrl "https://example.org/p#a?b" = "https://example.org/p#a?b&_format=json" := by
  refine ⟨rfl, rfl, ?_⟩
  decide

/-- C7 amended: the direct request is the first request issued and targets
the trimmed URL with `_format=json` appended — joined with `&` when the URL
contains a `?` character anywhere (even inside the fragment) and with `?`
otherwise — and the fallback embeds exactly this merged URL percent-encoded. -/
theorem direct_request_merge (env : Env) (input : String)
    (hne : jsTrim input ≠ "") (hok : env.urlOk (jsTrim input) = true) :
    ((loadCapabilityStatement env input).2.head? = some (directRequest (jsTrim input))) ∧
    (jsIncludes (jsTrim input) "?" = true →
      (directRequest (jsTrim input)).url = jsTrim input ++ "&_format=json") ∧
    (jsIncludes (jsTrim input) "?" = false →
      (directRequest (jsTrim input)).url = jsTrim input ++ "?_format=json") ∧
    ((fallbackRequest (jsTrim input)).url
      = proxyUrl ++ encodeURIComponent ((directRequest (jsTrim input)).url)) := by
  refine ⟨?_, ?_, ?_, rfl⟩
  · rw [load_valid_unfold env input hne hok]
    cases stage1Result env (jsTrim input) with
    | ok data => rfl
    | error e => cases stage2Result env (jsTrim input) <;> rfl
  · intro h
    show directUrl (jsTrim input) = _
    rw [directUrl, h]
    exact string_append_append _ _ _ _ rfl
  · intro h
    show directUrl (jsTrim input) = _
    rw [directUrl, h]
    exact string_append_append _ _ _ _ rfl

/-- Witness for C7 (amended) on a concrete query-free URL. -/
theorem direct_request_merge_witness :
    (((loadCapabilityStatement envDirectGood "https://example.org/metadata").2.head?
      = some (directRequest (jsTrim "https://example.org/metadata"))) ∧
    (jsIncludes (jsTrim "https://example.org/metadata") "?" = true →
      (directRequest (jsTrim "https://example.org/metadata")).url
        = jsTrim "https://example.org/metadata" ++ "&_format=json") ∧
    (jsIncludes (jsTrim "https://example.org/metadata") "?" = false →
      (directRequest (jsTrim "https://example.org/metadata")).url
        = jsTrim "https://example.org/metadata" ++ "?_format=json") ∧
    ((fallbackRequest (jsTrim "https://example.org/metadata")).url
      = proxyUrl
        ++ encodeURIComponent ((directRequest (jsTrim "https://example.org/metadata")).url))) :=
  direct_request_merge envDirectGood "https://example.org/metadata" (by decide) rfl

/-! ## C8: non-2xx statuses and the surfaced message -/

set_option maxRecDepth 20000 in
/-- C8 counterexample: with both stages answering `404 Not Found`, the load
fails with kind `HttpError`, but the surfaced message is the generic
both-stages-failed text, which mentions neither the status code nor the
status text (the rewriting in the final `catch` replaces the thrown
`Proxy request failed: HTTP 404: Not Found`). -/
theorem http_error_message_counterexample :
    (loadCapabilityStatement envBoth404 "https://example.org/metadata").1
      = .failure .httpError bothFailedText ∧
    jsIncludes bothFailedText "404" = false ∧
    jsIncludes bothFailedText "Not Found" = false := by
  refine ⟨rfl, ?_, ?_⟩ <;> decide

/-- C8 amended: a non-2xx status on the direct stage never determines the
final result (it always starts the fallback); when the fallback stage itself
answers non-2xx, the load fails with kind `HttpError`, but the surfaced
message is the generic both-stages-failed text — the status code and text
appear only in the internal error message, which the final `catch` rewrites
away. -/
theorem fallback_http_error_result (env : Env) (input : String) (r : HttpResponse)
    (hne : jsTrim input ≠ "") (hok : env.urlOk (jsTrim input) = true)
    (h1 : stage1Fails env (jsTrim input) = true)
    (h2 : env.fetch (fallbackRequest (jsTrim input)) = .response r)
    (h3 : statusOk r.status = false)
    (h4 : jsIncludes ("Proxy request failed: HTTP " ++ toString r.status ++ ": "
        ++ r.statusText) "Failed to fetch" = false)
    (h5 : jsIncludes ("Proxy request failed: HTTP " ++ toString r.status ++ ": "
        ++ r.statusText) "NetworkError" = false) :
    (loadCapabilityStatement env input).1 = .failure .httpError bothFailedText := by
  cases he : stage1Result env (jsTrim input) with
  | ok d0 => rw [stage1Fails, he] at h1; exact absurd h1 (by simp)
  | error e =>
    have hs2 : stage2Result env (jsTrim input)
        = .error (.proxyHttp r.status r.statusText) := by
      rw [stage2Result, h2]
      dsimp only
      rw [if_neg (by simp [h3])]
    rw [load_valid_unfold env input hne hok, he, hs2]
    show LoadResult.failure (LoadErr.proxyHttp r.status r.statusText).kind
      (rewriteMessage (LoadErr.proxyHttp r.status r.statusText).message) = _
    rw [LoadErr.kind, LoadErr.message, rewriteMessage, h4, h5]
    rw [if_neg (by simp), if_pos]
    exact proxyMsg_marker r.status r.statusText

/-- Witness for C8 (amended) at status 404. -/
theorem fallback_http_error_result_witness :
    (loadCapabilityStatement envBoth404 "https://not.example/fhir").1
      = .failure .httpError bothFailedText :=
  fallback_http_error_result envBoth404 "https://not.example/fhir"
    ⟨404, "Not Found", "nope"⟩ (by decide) rfl rfl rfl rfl (by decide) (by decide)

/-! ## C10: the stored document is always `null` or schema-valid -/

/-- C10: every reachable value of `capabilityData` is `null` or a document
passing the CapabilityStatement validity check (it is assigned only after
validation succeeds), and a failed load leaves the stored document unchanged
and does not rebuild the views. -/
theorem capabilityData_invariant :
    (∀ st, ReachableCapabilityData st →
      st = none ∨ ∃ d, st = some d ∧ isValidCapabilityStatement d = true) ∧
    (∀ st env input k m, (loadCapabilityStatement env input).1 = .failure k m →
      loadStep st env input = (st, false)) := by
  constructor
  · intro st h
    induction h with
    | init => exact .inl rfl
    | step st env input hst ih =>
      cases hr : (loadCapabilityStatement env input).1 with
      | success doc =>
        right
        exact ⟨doc, by rw [loadStep, hr], load_success_valid env input doc hr⟩
      | failure k m =>
        have hkeep : (loadStep st env input).1 = st := by rw [loadStep, hr]
        rw [hkeep]
        exact ih
  · intro st env input k m h
    rw [loadStep, h]

/-- Witness for C10: the initial state, and a failed load on a previously
stored document. -/
theorem capabilityData_invariant_witness :
    ((none : Option Json) = none ∨
      ∃ d, (none : Option Json) = some d ∧ isValidCapabilityStatement d = true) ∧
    loadStep (some goodDoc) envBoth404 "https://example.org/metadata"
      = (some goodDoc, false) :=
  ⟨capabilityData_invariant.1 none .init,
   capabilityData_invariant.2 (some goodDoc) envBoth404 "https://example.org/metadata"
     .httpError bothFailedText rfl⟩

/-! ## Percent-encoding round-trip lemmas (for C9) -/

theorem char_toNat_valid (c : Char) :
    c.toNat < 0xD800 ∨ (0xE000 ≤ c.toNat ∧ c.toNat < 0x110000) := by
  rcases c.valid with h | ⟨h1, h2⟩
  · exact .inl h
  · exact .inr ⟨h1, h2⟩

theorem char_toNat_lt (c : Char) : c.toNat < 0x110000 := by
  rcases char_toNat_valid c with h | ⟨_, h⟩ <;> omega

theorem utf8Decode_cons (b : Nat) (bs : List Nat) :
    utf8Decode (b :: bs) =
      (if b < 0x80 then
        (utf8Decode bs).map (fun cs => Char.ofNat b :: cs)
      else if b < 0xC2 then none
      else if b < 0xE0 then
        match bs with
        | b1 :: bs2 =>
          if 0x80 ≤ b1 ∧ b1 < 0xC0 then
            (utf8Decode bs2).map (fun cs => Char.ofNat ((b - 0xC0) * 64 + (b1 - 0x80)) :: cs)
          else none
        | [] => none
      else if b < 0xF0 then
        match bs with
        | b1 :: b2 :: bs2 =>
          if 0x80 ≤ b1 ∧ b1 < 0xC0 ∧ 0x80 ≤ b2 ∧ b2 < 0xC0 then
            let cp := (b - 0xE0) * 4096 + (b1 - 0x80) * 64 + (b2 - 0x80)
            if 0x800 ≤ cp ∧ ¬ (0xD800 ≤ cp ∧ cp < 0xE000) then
              (utf8Decode bs2).map (fun cs => Char.ofNat cp :: cs)
            else none
          else none
        | _ => none
      else if b < 0xF5 then
        match bs with
        | b1 :: b2 :: b3 :: bs2 =>
          if 0x80 ≤ b1 ∧ b1 < 0xC0 ∧ 0x80 ≤ b2 ∧ b2 < 0xC0 ∧ 0x80 ≤ b3 ∧ b3 < 0xC0 then
            let cp := (b - 0xF0) * 262144 + (b1 - 0x80) * 4096 + (b2 - 0x80) * 64
              + (b3 - 0x80)
            if 0x10000 ≤ cp ∧ cp < 0x110000 then
              (utf8Decode bs2).map (fun cs => Char.ofNat cp :: cs)
            else none
          else none
        | _ => none
      else none) := by
  cases bs with
  | nil => rfl
  | cons b1 bs1 =>
    cases bs1 with
    | nil => rfl
    | cons b2 bs2 =>
      cases bs2 with
      | nil => rfl
      | cons b3 bs3 => rfl

theorem utf8Decode_utf8Bytes (n : Nat)
    (hv : n < 0xD800 ∨ (0xE000 ≤ n ∧ n < 0x110000)) (rest : List Nat) :
    utf8Decode (utf8Bytes n ++ rest)
      = (utf8Decode rest).map (fun cs => Char.ofNat n :: cs) := by
  by_cases h1 : n < 0x80
  · rw [utf8Bytes, if_pos h1, List.cons_append, List.nil_append, utf8Decode_cons,
      if_pos h1]
  · by_cases h2 : n < 0x800
    · rw [utf8Bytes, if_neg h1, if_pos h2]
      rw [List.cons_append, List.cons_append, List.nil_append, utf8Decode_cons]
      rw [if_neg (by omega), if_neg (by omega), if_pos (by omega)]
      dsimp only
      rw [if_pos (by omega)]
      have he : (0xC0 + n / 64 - 0xC0) * 64 + (0x80 + n % 64 - 0x80) = n := by omega
      rw [he]
    · by_cases h3 : n < 0x10000
      · rw [utf8Bytes, if_neg h1, if_neg h2, if_pos h3]
        rw [List.cons_append, List.cons_append, List.cons_append, List.nil_append,
          utf8Decode_cons]
        rw [if_neg (by omega), if_neg (by omega), if_neg (by omega), if_pos (by omega)]
        dsimp only
        rw [if_pos (by omega)]
        have he : (0xE0 + n / 4096 - 0xE0) * 4096 + (0x80 + n / 64 % 64 - 0x80) * 64
            + (0x80 + n % 64 - 0x80) = n := by omega
        rw [he, if_pos (by omega)]
      · have h4 : n < 0x110000 := by omega
        rw [utf8Bytes, if_neg h1, if_neg h2, if_neg h3]
        rw [List.cons_append, List.cons_append, List.cons_append, List.cons_append,
          List.nil_append, utf8Decode_cons]
        rw [if_neg (by omega), if_neg (by omega), if_neg (by omega), if_neg (by omega),
          if_pos (by omega)]
        dsimp only
        rw [if_pos (by omega)]
        have he : (0xF0 + n / 262144 - 0xF0) * 262144 + (0x80 + n / 4096 % 64 - 0x80) * 4096
            + (0x80 + n / 64 % 64 - 0x80) * 64 + (0x80 + n % 64 - 0x80) = n := by omega
        rw [he, if_pos (by omega)]

theorem utf8Decode_char (c : Char) (rest : List Nat) :
    utf8Decode (utf8Bytes c.toNat ++ rest)
      = (utf8Decode rest).map (fun cs => c :: cs) := by
  rw [utf8Decode_utf8Bytes c.toNat (char_toNat_valid c) rest]
  simp only [Char.ofNat_toNat]

theorem utf8Decode_strBytes (l : List Char) : utf8Decode (strBytes l) = some l := by
  induction l with
  | nil => rfl
  | cons c cs ih =>
    have h : strBytes (c :: cs) = utf8Bytes c.toNat ++ strBytes cs := by
      rw [strBytes, List.flatMap_cons]
      rfl
    rw [h, utf8Decode_char, ih]
    rfl

theorem hexDigitChar_spec : ∀ m, m < 16 →
    (hexDigitChar m).toNat < 128 ∧ (hexDigitChar m).toNat ≠ 37 ∧
    (hexDigitChar m).toNat ≠ 43 ∧ (hexDigitChar m).toNat ≠ 38 ∧
    (hexDigitChar m).toNat ≠ 63 ∧
    hexValB ((hexDigitChar m).toNat) = some m := by decide

theorem utf8Bytes_bound (n : Nat) (hn : n < 0x110000) :
    ∀ b ∈ utf8Bytes n, b < 256 := by
  intro b hb
  rw [utf8Bytes] at hb
  by_cases h1 : n < 0x80
  · rw [if_pos h1] at hb
    simp only [List.mem_singleton] at hb
    omega
  · rw [if_neg h1] at hb
    by_cases h2 : n < 0x800
    · rw [if_pos h2] at hb
      simp only [List.mem_cons, List.not_mem_nil, or_false] at hb
      rcases hb with hb | hb <;> omega
    · rw [if_neg h2] at hb
      by_cases h3 : n < 0x10000
      · rw [if_pos h3] at hb
        simp only [List.mem_cons, List.not_mem_nil, or_false] at hb
        rcases hb with hb | hb | hb <;> omega
      · rw [if_neg h3] at hb
        simp only [List.mem_cons, List.not_mem_nil, or_false] at hb
        rcases hb with hb | hb | hb | hb <;> omega

theorem pctDecodeBytes_cons (b : Nat) (hb : b ≠ 37) (l : List Nat) :
    pctDecodeBytes (b :: l) = b :: pctDecodeBytes l := by
  cases l with
  | nil => rfl
  | cons b1 l1 =>
    cases l1 with
    | nil => rfl
    | cons b2 l2 =>
      show (if b = 37 then _ else b :: pctDecodeBytes (b1 :: b2 :: l2)) = _
      rw [if_neg hb]

theorem pctDecodeBytes_escape (b1 b2 v1 v2 : Nat)
    (h1 : hexValB b1 = some v1) (h2 : hexValB b2 = some v2) (l : List Nat) :
    pctDecodeBytes (37 :: b1 :: b2 :: l) = (16 * v1 + v2) :: pctDecodeBytes l := by
  have hu : pctDecodeBytes (37 :: b1 :: b2 :: l)
      = (match hexValB b1, hexValB b2 with
         | some h, some v => (16 * h + v) :: pctDecodeBytes l
         | _, _ => 37 :: pctDecodeBytes (b1 :: b2 :: l)) := rfl
  rw [hu, h1, h2]

theorem pctDecode_triples (bs : List Nat) (tail : List Nat) (hb : ∀ b ∈ bs, b < 256) :
    pctDecodeBytes (strBytes (bs.flatMap pctTriple) ++ tail) = bs ++ pctDecodeBytes tail := by
  induction bs with
  | nil =>
    rw [List.flatMap_nil]
    rfl
  | cons b rest ih =>
    have hblt : b < 256 := hb b (List.mem_cons_self b rest)
    have hd1 := hexDigitChar_spec (b / 16) (by omega)
    have hd2 := hexDigitChar_spec (b % 16) (by omega)
    have hs : strBytes ((b :: rest).flatMap pctTriple)
        = 37 :: (hexDigitChar (b / 16)).toNat :: (hexDigitChar (b % 16)).toNat
          :: strBytes (rest.flatMap pctTriple) := by
      rw [List.flatMap_cons]
      rw [show strBytes (pctTriple b ++ rest.flatMap pctTriple)
          = strBytes (pctTriple b) ++ strBytes (rest.flatMap pctTriple) from
        List.flatMap_append _ _ _]
      rw [show strBytes (pctTriple b)
          = utf8Bytes ('%'.toNat) ++ (utf8Bytes ((hexDigitChar (b / 16)).toNat)
            ++ (utf8Bytes ((hexDigitChar (b % 16)).toNat) ++ [])) from rfl]
      rw [show utf8Bytes ('%'.toNat) = [37] from rfl]
      rw [show utf8Bytes ((hexDigitChar (b / 16)).toNat)
          = [(hexDigitChar (b / 16)).toNat] from by rw [utf8Bytes, if_pos hd1.1]]
      rw [show utf8Bytes ((hexDigitChar (b % 16)).toNat)
          = [(hexDigitChar (b % 16)).toNat] from by rw [utf8Bytes, if_pos hd2.1]]
      rfl
    rw [hs, List.cons_append, List.cons_append, List.cons_append]
    rw [pctDecodeBytes_escape _ _ _ _ hd1.2.2.2.2.2 hd2.2.2.2.2.2]
    rw [ih (fun x hx => hb x (List.mem_cons_of_mem b hx))]
    have : 16 * (b / 16) + b % 16 = b := by omega
    rw [this]
    rfl

theorem pctDecode_encodeChar (c : Char) (tail : List Nat) :
    pctDecodeBytes (strBytes (encodeChar c) ++ tail)
      = utf8Bytes c.toNat ++ pctDecodeBytes tail := by
  by_cases hu : isUnreservedCode c.toNat = true
  · have hc : c.toNat < 128 ∧ c.toNat ≠ 37 := by
      rw [isUnreservedCode] at hu
      simp only [Bool.or_eq_true, Bool.and_eq_true, decide_eq_true_eq, beq_iff_eq] at hu
      omega
    rw [encodeChar, if_pos hu]
    rw [show strBytes [c] = utf8Bytes c.toNat ++ [] from rfl, List.append_nil]
    rw [show utf8Bytes c.toNat = [c.toNat] from by rw [utf8Bytes, if_pos hc.1]]
    rw [List.cons_append, List.nil_append, pctDecodeBytes_cons c.toNat hc.2]
    rfl
  · rw [encodeChar, if_neg hu]
    exact pctDecode_triples (utf8Bytes c.toNat) tail
      (utf8Bytes_bound c.toNat (char_toNat_lt c))

theorem pctDecode_encList (l : List Char) (tail : List Nat) :
    pctDecodeBytes (strBytes (encodeURIComponentList l) ++ tail)
      = strBytes l ++ pctDecodeBytes tail := by
  induction l with
  | nil => rfl
  | cons c cs ih =>
    rw [encodeURIComponentList, List.flatMap_cons]
    have h1 : strBytes (encodeChar c ++ cs.flatMap encodeChar)
        = strBytes (encodeChar c) ++ strBytes (encodeURIComponentList cs) := by
      simp only [strBytes, encodeURIComponentList, List.flatMap_append]
    rw [h1, List.append_assoc, pctDecode_encodeChar, ih]
    have h2 : strBytes (c :: cs) = utf8Bytes c.toNat ++ strBytes cs := by
      simp only [strBytes, List.flatMap_cons]
    rw [h2, List.append_assoc]

theorem char_ne_of_toNat_ne (a b : Char) (h : a.toNat ≠ b.toNat) : a ≠ b :=
  fun he => h (he ▸ rfl)

theorem encodeChar_mem_spec (c0 : Char) :
    ∀ c ∈ encodeChar c0, c ≠ '&' ∧ c ≠ '+' ∧ c ≠ '?' := by
  intro c hc
  rw [encodeChar] at hc
  by_cases hu : isUnreservedCode c0.toNat = true
  · rw [if_pos hu] at hc
    simp only [List.mem_singleton] at hc
    subst hc
    refine ⟨?_, ?_, ?_⟩ <;>
      { intro he
        rw [he] at hu
        exact absurd hu (by decide) }
  · rw [if_neg hu] at hc
    rw [List.mem_flatMap] at hc
    obtain ⟨b, hb, hcb⟩ := hc
    have hblt : b < 256 := utf8Bytes_bound c0.toNat (char_toNat_lt c0) b hb
    have hd1 := hexDigitChar_spec (b / 16) (by omega)
    have hd2 := hexDigitChar_spec (b % 16) (by omega)
    rw [pctTriple] at hcb
    simp only [List.mem_cons, List.not_mem_nil, or_false] at hcb
    rcases hcb with hcb | hcb | hcb <;> subst hcb
    · exact ⟨by decide, by decide, by decide⟩
    · exact ⟨char_ne_of_toNat_ne _ _ hd1.2.2.2.1,
        char_ne_of_toNat_ne _ _ hd1.2.2.1,
        char_ne_of_toNat_ne _ _ hd1.2.2.2.2.1⟩
    · exact ⟨char_ne_of_toNat_ne _ _ hd2.2.2.2.1,
        char_ne_of_toNat_ne _ _ hd2.2.2.1,
        char_ne_of_toNat_ne _ _ hd2.2.2.2.2.1⟩

theorem encList_mem_spec (l : List Char) :
    ∀ c ∈ encodeURIComponentList l, c ≠ '&' ∧ c ≠ '+' ∧ c ≠ '?' := by
  intro c hc
  rw [encodeURIComponentList, List.mem_flatMap] at hc
  obtain ⟨c0, _, hc⟩ := hc
  exact encodeChar_mem_spec c0 c hc

theorem plusToSpace_no_plus (l : List Char) (h : ∀ c ∈ l, c ≠ '+') :
    plusToSpace l = l := by
  induction l with
  | nil => rfl
  | cons c cs ih =>
    rw [plusToSpace, List.map_cons, if_neg (h c (List.mem_cons_self c cs))]
    rw [show List.map (fun c => if c = '+' then ' ' else c) cs = plusToSpace cs from rfl]
    rw [ih (fun x hx => h x (List.mem_cons_of_mem c hx))]

theorem splitOnAmp_no_amp (l : List Char) (h : ∀ c ∈ l, c ≠ '&') :
    splitOnAmp l = [l] := by
  induction l with
  | nil => rfl
  | cons c cs ih =>
    rw [splitOnAmp, if_neg (h c (List.mem_cons_self c cs))]
    rw [ih (fun x hx => h x (List.mem_cons_of_mem c hx))]

theorem splitAtEq_url (v : List Char) :
    splitAtEq ('u' :: 'r' :: 'l' :: '=' :: v) = (['u', 'r', 'l'], v) := rfl

theorem formUrlDecode_enc (l : List Char) :
    formUrlDecode (encodeURIComponentList l) = some l := by
  rw [formUrlDecode,
    plusToSpace_no_plus _ (fun c hc => (encList_mem_spec l c hc).2.1)]
  have h := pctDecode_encList l []
  rw [List.append_nil] at h
  rw [h]
  rw [show pctDecodeBytes [] = [] from rfl, List.append_nil]
  exact utf8Decode_strBytes l

theorem searchParamsGet_roundtrip (t : String) :
    searchParamsGet ("?url=" ++ encodeURIComponent t) "url" = some t := by
  have hdata : ("?url=" ++ encodeURIComponent t).data
      = '?' :: 'u' :: 'r' :: 'l' :: '=' :: encodeURIComponentList t.data := by
    rw [string_data_append]
    rfl
  rw [searchParamsGet, hdata]
  dsimp only
  rw [if_pos rfl]
  have hmem : ∀ c ∈ 'u' :: 'r' :: 'l' :: '=' :: encodeURIComponentList t.data, c ≠ '&' := by
    intro c hc
    simp only [List.mem_cons] at hc
    rcases hc with h | h | h | h | h
    · subst h; decide
    · subst h; decide
    · subst h; decide
    · subst h; decide
    · exact (encList_mem_spec t.data c h).1
  rw [splitOnAmp_no_amp _ hmem]
  rw [List.filter_cons, if_pos (by simp), List.filter_nil]
  rw [List.findSome?_cons]
  rw [splitAtEq_url]
  dsimp only
  rw [show formUrlDecode ['u', 'r', 'l'] = some ['u', 'r', 'l'] from rfl]
  dsimp only
  rw [if_pos rfl]
  dsimp only [Option.bind]
  rw [formUrlDecode_enc]
  rfl

/-! ## C9: the `url` query parameter round trip -/

set_option maxRecDepth 40000 in
/-- C9 counterexample: the permalink parameter for the target
`https://example.org/search?q=a%20b` reads back as
`https://example.org/search?q=a b` — the value is percent-decoded once by the
URL-parameter parsing and then a second time by the explicit
`decodeURIComponent`, so a target containing a percent-escape is corrupted. -/
theorem url_param_roundtrip_counterexample :
    checkUrlParametersUrl
        ("?url=" ++ encodeURIComponent "https://example.org/search?q=a%20b")
      = some (some "https://example.org/search?q=a b") ∧
    ("https://example.org/search?q=a b" : String)
      ≠ "https://example.org/search?q=a%20b" := by
  refine ⟨?_, by decide⟩
  rfl

/-- C9 amended: the permalink embeds the trimmed input percent-encoded into a
`url` parameter, and for a nonempty target reading the page address back
decodes that parameter twice — once by the URL-parameter parsing and once
more by the explicit `decodeURIComponent` — so the input path yields the
target decoded one extra time: targets that a second decode leaves unchanged
(no percent-escapes) round-trip, others are altered or rejected.  An absent
or empty parameter value starts no load (the `if (fhirUrl)` guard). -/
theorem url_param_double_decode (baseUrl target : String) :
    (jsTrim target ≠ "" →
      generatePermalink baseUrl target
        = some (baseUrl ++ "?url=" ++ encodeURIComponent (jsTrim target))) ∧
    (target ≠ "" →
      checkUrlParametersUrl ("?url=" ++ encodeURIComponent target)
        = some (decodeURIComponentModel target)) := by
  constructor
  · intro h
    rw [generatePermalink]
    rw [if_neg h]
  · intro h
    rw [checkUrlParametersUrl, searchParamsGet_roundtrip]
    dsimp only
    rw [if_neg h]

/-- Witness for C9 (amended) on a concrete escape-free target. -/
theorem url_param_double_decode_witness :
    generatePermalink "https://viewer.example/index.html" "https://example.org/metadata"
      = some ("https://viewer.example/index.html" ++ "?url="
          ++ encodeURIComponent (jsTrim "https://example.org/metadata")) ∧
    checkUrlParametersUrl ("?url=" ++ encodeURIComponent "https://example.org/metadata")
      = some (decodeURIComponentModel "https://example.org/metadata") :=
  ⟨(url_param_double_decode "https://viewer.example/index.html"
      "https://example.org/metadata").1 (by decide),
   (url_param_double_decode "https://viewer.example/index.html"
      "https://example.org/metadata").2 (by decide)⟩
